import Mathlib

/-!
# Smart attendance system — face recognition core, verified claims

Shallow embedding of the gallery/matcher, the per-frame tracker
(stabilizer) and the pipeline controller of the smart-attendance-system
repository (`face_recognition_enhanced.py`,
`face_recognition_opencv_simple.py`, `face_detection_opencv.py`,
`face_detection_new.py`, `src/core/simple_camera.py`), together with
theorems settling the spec's claims about them.

Modelling conventions:
* Python dicts are insertion-ordered association lists with unique keys
  (`dictGet`, `dictSet`, `dictDel` mirror `d.get(k)`, `d[k] = v`,
  `del d[k]`).
* Image buffers and descriptor samples are abstract tokens (`Sample :=
  Nat`); OpenCV image operations (imread, cvtColor, resize,
  equalizeHist, warpAffine, convertScaleAbs, LBPH predict/train) are
  environment inputs: their results are parameters of the embedded
  functions (`Bool` for success flags, `Option` for fallible results,
  token lists for generated sample sets).
* Timestamps and floating-point confidences/similarities are rationals.
* Per-module metadata fields that no claim reads (`registration_date`
  in the enhanced module, `original_image` in `face_detection_new`) are
  omitted from the record types.
-/

/-- Abstract descriptor sample / processed face image (token id). -/
abbrev Sample := Nat

/-- A detected face bounding box `(x, y, w, h)`. -/
structure Region where
  x : Nat
  y : Nat
  w : Nat
  h : Nat
  deriving DecidableEq, Repr

/-- Python `d.get(k)` (also `k in d` via `isSome`): value at the first
(and, keys being unique, only) occurrence of key `k`. -/
def dictGet {κ α : Type} [DecidableEq κ] (k : κ) : List (κ × α) → Option α
  | [] => none
  | p :: d => if p.1 = k then some p.2 else dictGet k d

/-- Python `d[k] = v`: update in place when the key is present
(preserving insertion order), else append at the end. -/
def dictSet {κ α : Type} [DecidableEq κ] (k : κ) (v : α) :
    List (κ × α) → List (κ × α)
  | [] => [(k, v)]
  | p :: d => if p.1 = k then (k, v) :: d else p :: dictSet k v d

/-- Python `del d[k]`. -/
def dictDel {κ α : Type} [DecidableEq κ] (k : κ) (d : List (κ × α)) :
    List (κ × α) :=
  d.filter (fun p => decide (p.1 ≠ k))

/-- Python `l[-n:]`: the most recent at most `n` elements of `l`. -/
def pyLastN {α : Type} (n : Nat) (l : List α) : List α :=
  l.drop (l.length - n)

/-- One enrolled identity's template: a value of `known_faces[student_id]`
(`'images'` in the enhanced/simple modules, `'samples'` in
`face_detection_opencv.py`). -/
structure FaceData where
  name : String
  label_id : Nat
  images : List Sample
  deriving DecidableEq, Repr

/-- A value of `face_labels[label_id]`. -/
structure LabelInfo where
  student_id : Nat
  name : String
  deriving DecidableEq, Repr

/-- The mutable gallery state shared by the recognizer classes:
`known_faces`, `face_labels` and the `is_trained` flag. -/
structure Gallery where
  known_faces : List (Nat × FaceData)
  face_labels : List (Nat × LabelInfo)
  is_trained : Bool
  deriving DecidableEq, Repr

/-- The `faces` list collected by the loops of `train_recognizer`
(one entry per stored sample, over all identities). -/
def trainingFaces (kf : List (Nat × FaceData)) : List Sample :=
  (kf.map (fun p => p.2.images)).flatten

/-- Total number of face samples across all enrolled templates. -/
def totalSamples (kf : List (Nat × FaceData)) : Nat :=
  (trainingFaces kf).length

/-- `EnhancedFaceRecognition.train_recognizer`
(`face_recognition_enhanced.py` lines 159-188): the `is_trained` flag
after the call, which equals the returned success bool.  Empty
`known_faces` or fewer than 2 collected samples set the flag false and
fail; otherwise the LBPH model is trained and the flag is set true. -/
def trainRecognizerEnhanced (kf : List (Nat × FaceData)) : Bool :=
  if kf.length = 0 then false
  else if (trainingFaces kf).length < 2 then false
  else true

/-- `OpenCVSimpleFaceRecognition.train_recognizer`
(`face_recognition_opencv_simple.py` lines 137-162): the `is_trained`
flag after the call, given its previous value `old`.  Empty
`known_faces` sets it false; at least one collected sample trains and
sets it true; the `len(faces) == 0` fall-through returns failure
without touching the flag. -/
def trainRecognizerSimple (kf : List (Nat × FaceData)) (old : Bool) : Bool :=
  if kf.length = 0 then false
  else if 0 < (trainingFaces kf).length then true
  else old

/-- Success bool returned by `OpenCVSimpleFaceRecognition.train_recognizer`. -/
def trainRecognizerSimpleOk (kf : List (Nat × FaceData)) : Bool :=
  if kf.length = 0 then false
  else if 0 < (trainingFaces kf).length then true
  else false

/-- `OpenCVSimpleFaceRecognition.add_student_face`
(`face_recognition_opencv_simple.py` lines 44-113): checks the image
file exists and loads, detects faces (`detected` is the
`detectMultiScale` result), rejects when none; otherwise stores the
single processed face ROI token (`face_roi`) — one new sample — as a
fresh template, or appends it to the existing template capped at the
most recent 5 samples, then retrains.  Returns the Python
(success, message) pair and the new gallery state. -/
def add_student_face_simple (g : Gallery) (sid : Nat) (sname : String)
    (fileExists imageLoads : Bool) (detected : List Region) (face_roi : Sample) :
    (Bool × String) × Gallery :=
  if !fileExists then ((false, "Image file not found"), g)
  else if !imageLoads then ((false, "Could not load image"), g)
  else if detected.isEmpty then
    ((false, "No face detected in image. Please use a clear photo with a visible face."), g)
  else
    let kf' :=
      match dictGet sid g.known_faces with
      | none =>
          g.known_faces ++ [(sid, ⟨sname, g.face_labels.length, [face_roi]⟩)]
      | some fd =>
          dictSet sid { fd with name := sname,
                                images := pyLastN 5 (fd.images ++ [face_roi]) }
            g.known_faces
    let lbl' :=
      match dictGet sid g.known_faces with
      | none => g.face_labels ++ [(g.face_labels.length, ⟨sid, sname⟩)]
      | some _ => g.face_labels
    let trainedAfter := trainRecognizerSimple kf' g.is_trained
    let g' : Gallery := ⟨kf', lbl', trainedAfter⟩
    if trainRecognizerSimpleOk kf' then
      ((true, "Face registered successfully"), g')
    else
      ((false, "Failed to train face recognizer"), g')

/-- The enhanced recognizer's LBPH-confidence→similarity conversion
(`face_recognition_enhanced.py` line 204):
`max(0, min(1, (200 - confidence) / 200))`. -/
def similarityEnhanced (confidence : ℚ) : ℚ :=
  max 0 (min 1 ((200 - confidence) / 200))

/-- The `(student_id, name, similarity)` triple returned by
`EnhancedFaceRecognition.recognize_face`. -/
structure RecogResult where
  student_id : Option Nat
  name : Option String
  similarity : ℚ
  deriving DecidableEq, Repr

/-- The `(None, None, 0)` non-match result. -/
def recogNone : RecogResult := ⟨none, none, 0⟩

/-- `EnhancedFaceRecognition.recognize_face` (lines 190-215).
`preprocessOk` is whether `preprocess_face` returned a face;
`predict` is the `recognizer.predict` outcome on it, with `none`
modelling the exception path swallowed by the handler.  Accepts only
when the converted similarity exceeds the hard-coded 0.2 threshold and
the predicted label is a known key (the code tests `label_id in
self.face_labels` and then indexes, which the lookup-match folds into
one step); every other path yields `(None, None, 0)`. -/
def recognize_face (trained : Bool) (labels : List (Nat × LabelInfo))
    (preprocessOk : Bool) (predict : Option (Nat × ℚ)) : RecogResult :=
  if !trained then recogNone
  else if !preprocessOk then recogNone
  else
    match predict with
    | none => recogNone
    | some (label_id, confidence) =>
        if 1/5 < similarityEnhanced confidence then
          match dictGet label_id labels with
          | some info => ⟨some info.student_id, some info.name, similarityEnhanced confidence⟩
          | none => recogNone
        else recogNone

/-- The per-face `(student_id, name, confidence)` triple computed inside
`OpenCVFaceDetector._detect_faces` (defaults `None`/"Unknown"/0). -/
structure CycleRecog where
  student_id : Option Nat
  name : String
  confidence : ℚ
  deriving DecidableEq, Repr

/-- The detector loop's LBPH-confidence→similarity conversion
(`face_detection_opencv.py` line 391): `max(0, (100 - conf) / 100)`. -/
def cycleSimilarity (conf : ℚ) : ℚ :=
  max 0 ((100 - conf) / 100)

/-- Per-face recognition inside `OpenCVFaceDetector._detect_faces`
(lines 378-402).  Only when the model is trained and `known_faces` is
nonempty does it predict (`predict = none` models the caught exception
path); an LBPH confidence below 100 is converted to a similarity and
accepted only above the configured `confidence_threshold`; all other
paths keep the `(None, "Unknown", 0)` defaults. -/
def recognizeInCycle (trained kfNonempty : Bool) (threshold : ℚ)
    (labels : List (Nat × LabelInfo)) (predict : Option (Nat × ℚ)) : CycleRecog :=
  if trained && kfNonempty then
    match predict with
    | none => ⟨none, "Unknown", 0⟩
    | some (label_id, conf) =>
        if conf < 100 then
          if threshold < cycleSimilarity conf then
            match dictGet label_id labels with
            | some info => ⟨some info.student_id, info.name, cycleSimilarity conf⟩
            | none => ⟨none, "Unknown", 0⟩
          else ⟨none, "Unknown", 0⟩
        else ⟨none, "Unknown", 0⟩
  else ⟨none, "Unknown", 0⟩

/-- Sample-storage step of `EnhancedFaceRecognition.add_student_face`
(lines 129-145): a new identity gets label `len(face_labels)` and the
generated `face_samples`; an existing identity's name is updated and
its sample list is replaced by the new `face_samples`. -/
def storeFaceEnhanced (kf : List (Nat × FaceData)) (labels : List (Nat × LabelInfo))
    (sid : Nat) (sname : String) (face_samples : List Sample) :
    List (Nat × FaceData) × List (Nat × LabelInfo) :=
  match dictGet sid kf with
  | none =>
      (kf ++ [(sid, ⟨sname, labels.length, face_samples⟩)],
       labels ++ [(labels.length, ⟨sid, sname⟩)])
  | some fd =>
      (dictSet sid { fd with name := sname, images := face_samples } kf, labels)

/-- Sample-storage step of `AdvancedFaceDetection.add_student_face`
(`face_detection_new.py` lines 250-268): a new identity gets a fresh
label and the generated `face_variations`; an existing identity's name
is updated and the variations are appended via `extend`, keeping only
the most recent 10 (`[-10:]`). -/
def storeFaceNew (kf : List (Nat × FaceData)) (labels : List (Nat × LabelInfo))
    (sid : Nat) (sname : String) (face_variations : List Sample) :
    List (Nat × FaceData) × List (Nat × LabelInfo) :=
  match dictGet sid kf with
  | none =>
      (kf ++ [(sid, ⟨sname, labels.length, face_variations⟩)],
       labels ++ [(labels.length, ⟨sid, sname⟩)])
  | some fd =>
      (dictSet sid { fd with name := sname,
                             images := pyLastN 10 (fd.images ++ face_variations) } kf,
       labels)

/-- `EnhancedFaceRecognition.add_student_face` (lines 76-157).
Environment inputs: `fileExists`, `imageLoads` (`os.path.exists` and
`cv2.imread`), the `detect_faces` result, and the `preprocess_face`
result (`none` models it returning `None`); `variations` are the four
generated rotation/brightness variants of the processed face, so the
stored `face_samples` list is `processed :: variations`.  Early
failures return with the gallery untouched; otherwise the samples are
stored, the recognizer retrained, and the (success, message) pair
reflects the training outcome. -/
def add_student_face_enhanced (g : Gallery) (sid : Nat) (sname : String)
    (fileExists imageLoads : Bool) (detected : List Region)
    (processed : Option Sample) (variations : List Sample) :
    (Bool × String) × Gallery :=
  if !fileExists then ((false, "Image file not found"), g)
  else if !imageLoads then ((false, "Could not load image"), g)
  else if detected.isEmpty then ((false, "No face detected in image"), g)
  else
    match processed with
    | none => ((false, "Face preprocessing failed"), g)
    | some p =>
        let face_samples := p :: variations
        let st := storeFaceEnhanced g.known_faces g.face_labels sid sname face_samples
        let trained' := trainRecognizerEnhanced st.1
        let g' : Gallery := ⟨st.1, st.2, trained'⟩
        if trained' then ((true, "Face registered"), g')
        else ((false, "Failed to train recognizer"), g')

/-- `EnhancedFaceRecognition.remove_student_face` (lines 434-454):
deletes the template and its label, retrains when identities remain
(else clears the trained flag), and reports whether the student was
found. -/
def remove_student_face_enhanced (g : Gallery) (sid : Nat) :
    (Bool × String) × Gallery :=
  match dictGet sid g.known_faces with
  | none => ((false, "No face data found"), g)
  | some fd =>
      let kf' := dictDel sid g.known_faces
      let lbl' := dictDel fd.label_id g.face_labels
      let trained' := if 0 < kf'.length then trainRecognizerEnhanced kf' else false
      ((true, "Removed face data"), ⟨kf', lbl', trained'⟩)

/-- `EnhancedFaceRecognition.load_face_data` (lines 406-432): the two
pickle files are environment inputs (`none` = file absent, contents
otherwise); the model file sets `is_trained` to the read outcome only
when it exists and `known_faces` is nonempty, else the flag is left
untouched.  The surrounding exception handler's reset path is
extensionally covered by empty file contents. -/
def load_face_data_enhanced (g : Gallery)
    (facesFile : Option (List (Nat × FaceData)))
    (labelsFile : Option (List (Nat × LabelInfo)))
    (modelFileExists modelReadOk : Bool) : Gallery :=
  let kf := facesFile.getD g.known_faces
  let lbl := labelsFile.getD g.face_labels
  let trained :=
    if modelFileExists && decide (0 < kf.length) then modelReadOk
    else g.is_trained
  ⟨kf, lbl, trained⟩

/-- Gallery states reachable through the enhanced module's lifecycle:
construction (`__init__` runs `load_face_data` on the empty untrained
gallery) followed by any sequence of enroll/unenroll calls. -/
inductive GalleryReachable : Gallery → Prop where
  | init (facesFile : Option (List (Nat × FaceData)))
      (labelsFile : Option (List (Nat × LabelInfo)))
      (modelFileExists modelReadOk : Bool) :
      GalleryReachable (load_face_data_enhanced ⟨[], [], false⟩ facesFile
        labelsFile modelFileExists modelReadOk)
  | add (g : Gallery) (sid : Nat) (sname : String)
      (fileExists imageLoads : Bool) (detected : List Region)
      (processed : Option Sample) (variations : List Sample) :
      GalleryReachable g →
      GalleryReachable (add_student_face_enhanced g sid sname fileExists
        imageLoads detected processed variations).2
  | remove (g : Gallery) (sid : Nat) :
      GalleryReachable g →
      GalleryReachable (remove_student_face_enhanced g sid).2

/-- One entry of `OpenCVFaceDetector.detection_history`.  The Python
key is the string `f"{x}_{y}_{w}_{h}"`; decimal rendering with
underscore separators is injective on the tuple, so the `Region`
itself serves as the key. -/
structure Detection where
  count : Nat
  first_seen : ℚ
  last_seen : ℚ
  student_id : Option Nat
  name : String
  confidence : ℚ
  location : Region
  deriving DecidableEq, Repr

/-- Update of an existing `detection_history[face_key]` entry
(`face_detection_opencv.py` lines 419-427): bump the hit count, refresh
last-seen, and overwrite confidence/identity/name only when the new
confidence is strictly higher. -/
def updateDetection (now : ℚ) (r : CycleRecog) (d : Detection) : Detection :=
  let d1 := { d with count := d.count + 1, last_seen := now }
  if d.confidence < r.confidence then
    { d1 with confidence := r.confidence, student_id := r.student_id,
              name := r.name }
  else d1

/-- Processing one observed face region (lines 404-427): create a fresh
history entry (count 1, first/last seen now, location = key) or update
the existing one. -/
def trackObservation (now : ℚ) (hist : List (Region × Detection))
    (key : Region) (r : CycleRecog) : List (Region × Detection) :=
  match dictGet key hist with
  | none =>
      hist ++ [(key, ⟨1, now, now, r.student_id, r.name, r.confidence, key⟩)]
  | some d => dictSet key (updateDetection now r d) hist

/-- Stale-entry cleanup (lines 429-437): drop entries whose last-seen
lies more than 5 seconds before `now`. -/
def evictOld (now : ℚ) (hist : List (Region × Detection)) :
    List (Region × Detection) :=
  hist.filter (fun p => !decide (5 < now - p.2.last_seen))

/-- Pixel overlap of two boxes (lines 346-349); `Nat` subtraction gives
the `max(0, ·)` clamping. -/
def overlapArea (a b : Region) : Nat :=
  (min (a.x + a.w) (b.x + b.w) - max a.x b.x) *
    (min (a.y + a.h) (b.y + b.h) - max a.y b.y)

/-- A candidate is a duplicate when it overlaps an already kept face by
more than 50% of the smaller area (lines 343-354);
`overlap > 0.5 * min(areas)` is expressed over naturals as
`min(areas) < 2 * overlap`. -/
def isDuplicateOf (r : Region) (kept : List Region) : Bool :=
  kept.any (fun q => decide (min (r.w * r.h) (q.w * q.h) < 2 * overlapArea r q))

/-- Quality filter (lines 337-357): keep faces with aspect ratio `w/h`
in `[0.7, 1.4]` (over naturals: `7h ≤ 10w ∧ 10w ≤ 14h`) and width and
height at least 80, dropping near-duplicate overlaps. -/
def qualityFilter (faces : List Region) : List Region :=
  faces.foldl
    (fun kept r =>
      if 7 * r.h ≤ 10 * r.w ∧ 10 * r.w ≤ 14 * r.h ∧ 80 ≤ r.w ∧ 80 ≤ r.h then
        if isDuplicateOf r kept then kept else kept ++ [r]
      else kept)
    []

/-- Line 360: `all_faces = quality_faces[:2] if len(quality_faces) > 2
else quality_faces`. -/
def capTwoFaces (quality_faces : List Region) : List Region :=
  if 2 < quality_faces.length then quality_faces.take 2 else quality_faces

/-- One iteration of the `_detect_faces` loop (lines 299-453) from the
cascade output onward: quality-filter the raw detections, cap them at
two, track each processed region (`recog` abstracts the per-region
padding/preprocessing/LBPH prediction as the resulting `CycleRecog`),
then clean up stale entries.  `nowU` is the timestamp taken inside the
tracking loop, `nowE` the (later) one taken for cleanup.  Returns the
new `detection_history`. -/
def detectFacesCycle (hist : List (Region × Detection)) (nowU nowE : ℚ)
    (rawFaces : List Region) (recog : Region → CycleRecog) :
    List (Region × Detection) :=
  let all_faces := capTwoFaces (qualityFilter rawFaces)
  let h1 := all_faces.foldl (fun h key => trackObservation nowU h key (recog key)) hist
  evictOld nowE h1

/-- One entry of the published `detected_faces` list. -/
structure FaceOut where
  student_id : Option Nat
  name : String
  confidence : ℚ
  location : Region
  timestamp : ℚ
  deriving DecidableEq, Repr

/-- `stable_faces` construction (lines 439-448): one output entry per
history entry. -/
def stableFaces (hist : List (Region × Detection)) : List FaceOut :=
  hist.map (fun p =>
    ⟨p.2.student_id, p.2.name, p.2.confidence, p.2.location, p.2.last_seen⟩)

/-- Well-formedness of a detection history: keys are unique (Python
dict) and each entry's stored location is its key (set at creation,
never overwritten). -/
def HistWF (hist : List (Region × Detection)) : Prop :=
  (hist.map Prod.fst).Nodup ∧ ∀ p ∈ hist, p.2.location = p.1

/-- Observable lifecycle state of `EnhancedFaceRecognition`'s pipeline:
the running flag, whether an opened camera device is held, how many
live capture/detection threads have been spawned, and the two shared
slots. -/
structure ControllerState where
  is_running : Bool
  cap_open : Bool
  capture_threads : Nat
  detection_threads : Nat
  current_frame : Option Sample
  detected_faces : List FaceOut
  deriving DecidableEq, Repr

/-- `EnhancedFaceRecognition.start_detection` (lines 217-248): an
already-running pipeline returns `(True, "Detection already running")`
immediately; otherwise the device is opened (`cameraOpens` is the
`isOpened` outcome — on failure the held capture object is not open, so
`cap_open` stays false) and one capture and one detection thread are
spawned. -/
def start_detection (s : ControllerState) (cameraOpens : Bool) :
    (Bool × String) × ControllerState :=
  if s.is_running then ((true, "Detection already running"), s)
  else if !cameraOpens then ((false, "Could not open camera"), s)
  else
    ((true, "Camera started successfully"),
     { s with is_running := true, cap_open := true,
              capture_threads := s.capture_threads + 1,
              detection_threads := s.detection_threads + 1 })

/-- `EnhancedFaceRecognition.stop_detection` (lines 354-378): clears
the running flag, joins both threads (their loops exit on the cleared
flag), releases the device, clears both shared slots, and returns
success unconditionally. -/
def stop_detection (s : ControllerState) : (Bool × String) × ControllerState :=
  ((true, "Camera stopped"),
   { s with is_running := false, cap_open := false,
            capture_threads := 0, detection_threads := 0,
            current_frame := none, detected_faces := [] })

/-- Reference to a Python object on the heap. -/
abbrev Addr := Nat

/-- Contents of one published detected-face dict. -/
structure FaceEntry where
  student_id : Option Nat
  name : String
  confidence : ℚ
  deriving DecidableEq, Repr

/-- Explicit heap of face dicts and frame buffers with a fresh-address
counter; models Python reference semantics for the two shared slots. -/
structure PyHeap where
  faceCells : List (Addr × FaceEntry)
  frameCells : List (Addr × List Nat)
  nextAddr : Addr
  deriving DecidableEq, Repr

/-- The two shared slots hold references into the heap. -/
structure SharedSlots where
  detected_faces : List Addr
  current_frame : Option Addr
  deriving DecidableEq, Repr

/-- All allocated cells lie below the fresh-address counter. -/
def PyHeap.WF (h : PyHeap) : Prop :=
  (∀ p ∈ h.faceCells, p.1 < h.nextAddr) ∧ (∀ p ∈ h.frameCells, p.1 < h.nextAddr)

/-- Value currently stored in a face dict. -/
def readFace (h : PyHeap) (a : Addr) : Option FaceEntry :=
  dictGet a h.faceCells

/-- The reader-visible contents of a list of face references (in
particular of the internal `detected_faces` slot). -/
def readFacesView (h : PyHeap) (refs : List Addr) : List (Option FaceEntry) :=
  refs.map (readFace h)

/-- In-place mutation of a face dict, e.g. a reader writing through a
reference it was handed. -/
def writeFace (h : PyHeap) (a : Addr) (v : FaceEntry) : PyHeap :=
  { h with faceCells := dictSet a v h.faceCells }

/-- `get_detected_faces` (`face_recognition_enhanced.py` lines 380-383,
likewise `face_detection_opencv.py`): `self.detected_faces.copy()` — a
new list object containing the same element references. -/
def get_detected_faces (slots : SharedSlots) : List Addr :=
  slots.detected_faces

/-- The detection thread publishing a new detections list
(`self.detected_faces = stable_faces`): each cycle builds brand-new
face dicts, so the slot is replaced by freshly allocated cells. -/
def publishFaces (h : PyHeap) (slots : SharedSlots) (entries : List FaceEntry) :
    PyHeap × SharedSlots :=
  let addrs := (List.range entries.length).map (fun i => h.nextAddr + i)
  ({ h with faceCells := h.faceCells ++ addrs.zip entries,
            nextAddr := h.nextAddr + entries.length },
   { slots with detected_faces := addrs })

/-- Value currently stored in a frame buffer. -/
def readFrame (h : PyHeap) (a : Addr) : Option (List Nat) :=
  dictGet a h.frameCells

/-- In-place mutation of a frame buffer. -/
def writeFrame (h : PyHeap) (a : Addr) (buf : List Nat) : PyHeap :=
  { h with frameCells := dictSet a buf h.frameCells }

/-- `SimpleCamera.get_frame` (`src/core/simple_camera.py` lines
219-224), likewise the enhanced module's frame reads:
`self.current_frame.copy()` — a freshly allocated buffer holding a copy
of the pixels, or `None` when no frame is held.  The dangling-reference
fallback cannot occur when the slot points at an allocated cell. -/
def get_frame (h : PyHeap) (slots : SharedSlots) : Option Addr × PyHeap :=
  match slots.current_frame with
  | none => (none, h)
  | some a =>
      match dictGet a h.frameCells with
      | none => (none, h)
      | some buf =>
          (some h.nextAddr,
           { h with frameCells := h.frameCells ++ [(h.nextAddr, buf)],
                    nextAddr := h.nextAddr + 1 })

/-! ## Helper lemmas -/

/-- A gallery with no identities has no training faces. -/
theorem trainingFaces_of_length_zero (kf : List (Nat × FaceData))
    (h : kf.length = 0) : trainingFaces kf = [] := by
  rcases List.length_eq_zero.mp h with rfl
  rfl

theorem dictGet_eq_none_iff {κ α : Type} [DecidableEq κ] {k : κ}
    {d : List (κ × α)} : dictGet k d = none ↔ ∀ p ∈ d, p.1 ≠ k := by
  induction d with
  | nil => simp [dictGet]
  | cons p d ih =>
    by_cases h : p.1 = k
    · simp [dictGet, h]
    · simp [dictGet, h, ih]

theorem dictGet_some_mem {κ α : Type} [DecidableEq κ] {k : κ} {v : α}
    {d : List (κ × α)} (h : dictGet k d = some v) : (k, v) ∈ d := by
  induction d with
  | nil => simp [dictGet] at h
  | cons p d ih =>
    obtain ⟨p1, p2⟩ := p
    by_cases hp : p1 = k
    · rw [dictGet, if_pos hp] at h
      injection h with h2
      subst hp
      subst h2
      exact List.mem_cons_self _ _
    · rw [dictGet, if_neg hp] at h
      exact List.mem_cons_of_mem _ (ih h)

theorem dictGet_append_left {κ α : Type} [DecidableEq κ] {k : κ} {v : α}
    {d₁ : List (κ × α)} (d₂ : List (κ × α)) (h : dictGet k d₁ = some v) :
    dictGet k (d₁ ++ d₂) = some v := by
  induction d₁ with
  | nil => simp [dictGet] at h
  | cons p d ih =>
    by_cases hp : p.1 = k
    · rw [dictGet, if_pos hp] at h
      rw [List.cons_append, dictGet, if_pos hp]
      exact h
    · rw [dictGet, if_neg hp] at h
      rw [List.cons_append, dictGet, if_neg hp]
      exact ih h

theorem dictGet_append_right {κ α : Type} [DecidableEq κ] {k : κ}
    {d₁ : List (κ × α)} (d₂ : List (κ × α)) (h : dictGet k d₁ = none) :
    dictGet k (d₁ ++ d₂) = dictGet k d₂ := by
  induction d₁ with
  | nil => rfl
  | cons p d ih =>
    by_cases hp : p.1 = k
    · rw [dictGet, if_pos hp] at h
      cases h
    · rw [dictGet, if_neg hp] at h
      rw [List.cons_append, dictGet, if_neg hp]
      exact ih h

theorem dictGet_dictSet_self {κ α : Type} [DecidableEq κ] (k : κ) (v : α)
    (d : List (κ × α)) : dictGet k (dictSet k v d) = some v := by
  induction d with
  | nil => simp [dictGet, dictSet]
  | cons p d ih =>
    by_cases hp : p.1 = k
    · rw [dictSet, if_pos hp, dictGet, if_pos rfl]
    · rw [dictSet, if_neg hp, dictGet, if_neg hp]
      exact ih

theorem dictGet_dictSet_ne {κ α : Type} [DecidableEq κ] {k k' : κ}
    (h : k' ≠ k) (v : α) (d : List (κ × α)) :
    dictGet k (dictSet k' v d) = dictGet k d := by
  induction d with
  | nil => simp [dictGet, dictSet, h]
  | cons p d ih =>
    by_cases hp : p.1 = k'
    · rw [dictSet, if_pos hp, dictGet, if_neg h, dictGet, hp, if_neg h]
    · rw [dictSet, if_neg hp, dictGet, dictGet]
      by_cases hk : p.1 = k
      · rw [if_pos hk, if_pos hk]
      · rw [if_neg hk, if_neg hk]
        exact ih

theorem dictSet_ne_nil {κ α : Type} [DecidableEq κ] (k : κ) (v : α)
    (d : List (κ × α)) : dictSet k v d ≠ [] := by
  cases d with
  | nil => simp [dictSet]
  | cons p d =>
    rw [dictSet]
    split_ifs <;> simp

theorem mem_dictSet {κ α : Type} [DecidableEq κ] {p : κ × α} {k : κ} {v : α}
    {d : List (κ × α)} (h : p ∈ dictSet k v d) : p = (k, v) ∨ p ∈ d := by
  induction d with
  | nil => simpa [dictSet] using h
  | cons q d ih =>
    by_cases hq : q.1 = k
    · rw [dictSet, if_pos hq] at h
      rcases List.mem_cons.mp h with h | h
      · exact Or.inl h
      · exact Or.inr (List.mem_cons_of_mem _ h)
    · rw [dictSet, if_neg hq] at h
      rcases List.mem_cons.mp h with h | h
      · exact Or.inr (h ▸ List.mem_cons_self _ _)
      · rcases ih h with h | h
        · exact Or.inl h
        · exact Or.inr (List.mem_cons_of_mem _ h)

theorem map_fst_dictSet_of_some {κ α : Type} [DecidableEq κ] {k : κ} {w : α}
    {d : List (κ × α)} (v : α) (h : dictGet k d = some w) :
    (dictSet k v d).map Prod.fst = d.map Prod.fst := by
  induction d with
  | nil => simp [dictGet] at h
  | cons p d ih =>
    by_cases hp : p.1 = k
    · rw [dictSet, if_pos hp]
      simp [hp]
    · rw [dictGet, if_neg hp] at h
      rw [dictSet, if_neg hp]
      simp [ih h]

theorem dictGet_filter_none {κ α : Type} [DecidableEq κ] {k : κ}
    {d : List (κ × α)} (p : κ × α → Bool) (h : dictGet k d = none) :
    dictGet k (d.filter p) = none := by
  rw [dictGet_eq_none_iff] at h ⊢
  intro q hq
  exact h q (List.mem_of_mem_filter hq)

theorem similarityEnhanced_nonneg (c : ℚ) : 0 ≤ similarityEnhanced c :=
  le_max_left 0 _

theorem similarityEnhanced_le_one (c : ℚ) : similarityEnhanced c ≤ 1 := by
  unfold similarityEnhanced
  exact max_le (by norm_num) (min_le_left 1 _)

theorem cycleSimilarity_nonneg (c : ℚ) : 0 ≤ cycleSimilarity c :=
  le_max_left 0 _

theorem cycleSimilarity_le_one {c : ℚ} (h : 0 ≤ c) : cycleSimilarity c ≤ 1 := by
  unfold cycleSimilarity
  apply max_le (by norm_num)
  rw [div_le_one (by norm_num)]
  linarith

theorem storeFaceEnhanced_fst_ne_nil (kf : List (Nat × FaceData))
    (labels : List (Nat × LabelInfo)) (sid : Nat) (sname : String)
    (fs : List Sample) : (storeFaceEnhanced kf labels sid sname fs).1 ≠ [] := by
  unfold storeFaceEnhanced
  cases h : dictGet sid kf with
  | none => simp
  | some fd => exact dictSet_ne_nil _ _ _

theorem dictGet_trackObservation_ne {now : ℚ} {hist : List (Region × Detection)}
    {key : Region} {r : CycleRecog} {k : Region} (h : key ≠ k) :
    dictGet k (trackObservation now hist key r) = dictGet k hist := by
  unfold trackObservation
  cases hg : dictGet key hist with
  | none =>
    cases hk : dictGet k hist with
    | none =>
      rw [dictGet_append_right _ hk]
      simp [dictGet, h]
    | some v => exact dictGet_append_left _ hk
  | some d => exact dictGet_dictSet_ne h _ _

theorem dictGet_foldl_track (now : ℚ) (recog : Region → CycleRecog)
    (ks : List Region) (hist : List (Region × Detection)) (k : Region)
    (hk : k ∉ ks) :
    dictGet k (ks.foldl (fun h key => trackObservation now h key (recog key)) hist)
      = dictGet k hist := by
  induction ks generalizing hist with
  | nil => rfl
  | cons a t ih =>
    have ha : a ≠ k := fun h => hk (h ▸ List.mem_cons_self a t)
    have ht : k ∉ t := fun h => hk (List.mem_cons_of_mem _ h)
    rw [List.foldl_cons, ih _ ht, dictGet_trackObservation_ne ha]

theorem keysNodup_trackObservation (now : ℚ) (hist : List (Region × Detection))
    (key : Region) (r : CycleRecog) (h : (hist.map Prod.fst).Nodup) :
    ((trackObservation now hist key r).map Prod.fst).Nodup := by
  unfold trackObservation
  cases hg : dictGet key hist with
  | none =>
    rw [dictGet_eq_none_iff] at hg
    rw [List.map_append]
    simp only [List.map_cons, List.map_nil]
    rw [List.nodup_append]
    refine ⟨h, List.nodup_singleton _, ?_⟩
    intro a ha hb
    rcases List.mem_map.mp ha with ⟨p, hp, rfl⟩
    rcases List.mem_singleton.mp hb with rfl
    exact hg p hp rfl
  | some d => rw [map_fst_dictSet_of_some _ hg]; exact h

theorem keysNodup_foldl_track (now : ℚ) (recog : Region → CycleRecog)
    (ks : List Region) (hist : List (Region × Detection))
    (h : (hist.map Prod.fst).Nodup) :
    (((ks.foldl (fun h key => trackObservation now h key (recog key)) hist)).map
      Prod.fst).Nodup := by
  induction ks generalizing hist with
  | nil => exact h
  | cons a t ih =>
    rw [List.foldl_cons]
    exact ih _ (keysNodup_trackObservation now hist a (recog a) h)

theorem locWF_trackObservation (now : ℚ) (hist : List (Region × Detection))
    (key : Region) (r : CycleRecog) (h : ∀ p ∈ hist, p.2.location = p.1) :
    ∀ p ∈ trackObservation now hist key r, p.2.location = p.1 := by
  unfold trackObservation
  cases hg : dictGet key hist with
  | none =>
    intro p hp
    rcases List.mem_append.mp hp with hp | hp
    · exact h p hp
    · rcases List.mem_singleton.mp hp with rfl
      rfl
  | some d =>
    intro p hp
    rcases mem_dictSet hp with rfl | hp
    · have hd : d.location = key := h (key, d) (dictGet_some_mem hg)
      unfold updateDetection
      split_ifs <;> simpa using hd
    · exact h p hp

theorem locWF_foldl_track (now : ℚ) (recog : Region → CycleRecog)
    (ks : List Region) (hist : List (Region × Detection))
    (h : ∀ p ∈ hist, p.2.location = p.1) :
    ∀ p ∈ ks.foldl (fun h key => trackObservation now h key (recog key)) hist,
      p.2.location = p.1 := by
  induction ks generalizing hist with
  | nil => exact h
  | cons a t ih =>
    rw [List.foldl_cons]
    exact ih _ (locWF_trackObservation now hist a (recog a) h)

theorem dictGet_evictOld_of_stale (now : ℚ) {hist : List (Region × Detection)}
    {k : Region} {d : Detection} (hnd : (hist.map Prod.fst).Nodup)
    (hg : dictGet k hist = some d) (hstale : 5 < now - d.last_seen) :
    dictGet k (evictOld now hist) = none := by
  induction hist with
  | nil => simp [dictGet] at hg
  | cons p t ih =>
    rw [List.map_cons, List.nodup_cons] at hnd
    by_cases hp : p.1 = k
    · rw [dictGet, if_pos hp] at hg
      cases hg
      have hnone : dictGet k t = none := by
        rw [dictGet_eq_none_iff]
        intro q hq hqk
        apply hnd.1
        rw [hp, ← hqk]
        exact List.mem_map_of_mem Prod.fst hq
      unfold evictOld
      rw [List.filter_cons]
      have : (!decide (5 < now - p.2.last_seen)) = false := by
        simp [hstale]
      rw [this]
      simp only [Bool.false_eq_true, if_false]
      exact dictGet_filter_none _ hnone
    · rw [dictGet, if_neg hp] at hg
      unfold evictOld
      rw [List.filter_cons]
      split_ifs with hkeep
      · rw [dictGet, if_neg hp]
        exact ih hnd.2 hg
      · exact ih hnd.2 hg

theorem dictGet_evictOld_of_fresh (now : ℚ) {hist : List (Region × Detection)}
    {k : Region} {d : Detection} (hg : dictGet k hist = some d)
    (hfresh : ¬ 5 < now - d.last_seen) :
    dictGet k (evictOld now hist) = some d := by
  induction hist with
  | nil => simp [dictGet] at hg
  | cons p t ih =>
    by_cases hp : p.1 = k
    · rw [dictGet, if_pos hp] at hg
      injection hg with hg2
      unfold evictOld
      rw [List.filter_cons]
      have hkeep : (!decide (5 < now - p.2.last_seen)) = true := by
        rw [hg2]
        simp [hfresh]
      rw [if_pos hkeep, dictGet, if_pos hp, hg2]
    · rw [dictGet, if_neg hp] at hg
      unfold evictOld
      rw [List.filter_cons]
      split_ifs with hkeep
      · rw [dictGet, if_neg hp]
        exact ih hg
      · exact ih hg

theorem confBounds_updateDetection (now : ℚ) (r : CycleRecog) (d : Detection)
    (hd : 0 ≤ d.confidence ∧ d.confidence ≤ 1)
    (hr : 0 ≤ r.confidence ∧ r.confidence ≤ 1) :
    0 ≤ (updateDetection now r d).confidence ∧
      (updateDetection now r d).confidence ≤ 1 := by
  unfold updateDetection
  split_ifs <;> simpa using (by first | exact hr | exact hd)

theorem confBounds_trackObservation (now : ℚ)
    (hist : List (Region × Detection)) (key : Region) (r : CycleRecog)
    (hh : ∀ p ∈ hist, 0 ≤ p.2.confidence ∧ p.2.confidence ≤ 1)
    (hr : 0 ≤ r.confidence ∧ r.confidence ≤ 1) :
    ∀ p ∈ trackObservation now hist key r,
      0 ≤ p.2.confidence ∧ p.2.confidence ≤ 1 := by
  unfold trackObservation
  cases hg : dictGet key hist with
  | none =>
    intro p hp
    rcases List.mem_append.mp hp with hp | hp
    · exact hh p hp
    · rcases List.mem_singleton.mp hp with rfl
      exact hr
  | some d =>
    intro p hp
    rcases mem_dictSet hp with rfl | hp
    · exact confBounds_updateDetection now r d
        (hh (key, d) (dictGet_some_mem hg)) hr
    · exact hh p hp

theorem confBounds_foldl_track (now : ℚ) (recog : Region → CycleRecog)
    (ks : List Region) (hist : List (Region × Detection))
    (hh : ∀ p ∈ hist, 0 ≤ p.2.confidence ∧ p.2.confidence ≤ 1)
    (hr : ∀ reg, 0 ≤ (recog reg).confidence ∧ (recog reg).confidence ≤ 1) :
    ∀ p ∈ ks.foldl (fun h key => trackObservation now h key (recog key)) hist,
      0 ≤ p.2.confidence ∧ p.2.confidence ≤ 1 := by
  induction ks generalizing hist with
  | nil => exact hh
  | cons a t ih =>
    rw [List.foldl_cons]
    exact ih _ (confBounds_trackObservation now hist a (recog a) hh (hr a))

/-- `add_student_face` either leaves the gallery untouched (an early
failure) or leaves `known_faces` nonempty (the enrolled identity is
present). -/
theorem add_student_face_enhanced_state (g : Gallery) (sid : Nat)
    (sname : String) (fe il : Bool) (det : List Region)
    (proc : Option Sample) (vars : List Sample) :
    (add_student_face_enhanced g sid sname fe il det proc vars).2 = g ∨
    (add_student_face_enhanced g sid sname fe il det proc vars).2.known_faces
      ≠ [] := by
  unfold add_student_face_enhanced
  cases proc with
  | none => split_ifs <;> exact Or.inl rfl
  | some p =>
    dsimp only
    split_ifs <;>
      first
        | exact Or.inl rfl
        | exact Or.inr (storeFaceEnhanced_fst_ne_nil _ _ _ _ _)

/-- `remove_student_face` either leaves the gallery untouched (unknown
student) or produces a state in which an emptied `known_faces` comes
with a cleared trained flag. -/
theorem remove_student_face_enhanced_state (g : Gallery) (sid : Nat) :
    (remove_student_face_enhanced g sid).2 = g ∨
    ((remove_student_face_enhanced g sid).2.known_faces = [] →
      (remove_student_face_enhanced g sid).2.is_trained = false) := by
  unfold remove_student_face_enhanced
  cases hdg : dictGet sid g.known_faces with
  | none => exact Or.inl rfl
  | some fd =>
    right
    dsimp only
    intro h
    rw [h]
    simp

/-- The enhanced gallery's reachable-state invariant: an empty
`known_faces` dict forces `is_trained = false`, so recognition on an
empty gallery is gated by the untrained check. -/
theorem galleryReachable_empty_untrained {g : Gallery}
    (hg : GalleryReachable g) : g.known_faces = [] → g.is_trained = false := by
  induction hg with
  | init f l me mr =>
    simp only [load_face_data_enhanced]
    intro h
    simp [h]
  | add g sid sname fe il det proc vars hg ih =>
    rcases add_student_face_enhanced_state g sid sname fe il det proc vars
      with h | h
    · rw [h]
      exact ih
    · intro hk
      exact absurd hk h
  | remove g sid hg ih =>
    rcases remove_student_face_enhanced_state g sid with h | h
    · rw [h]
      exact ih
    · exact h

/-! ## C2 — similarity bounds and threshold gating -/

/-- C2 — confirmed.  The enhanced recognizer's reported similarity
always lies in [0,1]; when the computed similarity is below its 0.2
threshold the reported identity is `None`.  The detector loop's
reported confidence lies in [0,1] for any nonnegative raw LBPH
distance; when its computed similarity is below the configured
threshold the identity stays `None`; and a full detection cycle
preserves the [0,1] bound on every published tracked face. -/
theorem C2_similarity_bounds (trained pre : Bool)
    (labels : List (Nat × LabelInfo)) (predict : Option (Nat × ℚ))
    (lid : Nat) (conf : ℚ) (trainedC kfC : Bool) (threshold : ℚ)
    (labelsC : List (Nat × LabelInfo)) (hist : List (Region × Detection))
    (nowU nowE : ℚ) (rawFaces : List Region) (recog : Region → CycleRecog) :
    (0 ≤ (recognize_face trained labels pre predict).similarity ∧
      (recognize_face trained labels pre predict).similarity ≤ 1) ∧
    (similarityEnhanced conf < 1/5 →
      (recognize_face trained labels pre (some (lid, conf))).student_id = none) ∧
    (0 ≤ conf →
      0 ≤ (recognizeInCycle trainedC kfC threshold labelsC
            (some (lid, conf))).confidence ∧
      (recognizeInCycle trainedC kfC threshold labelsC
            (some (lid, conf))).confidence ≤ 1) ∧
    (cycleSimilarity conf < threshold →
      (recognizeInCycle trainedC kfC threshold labelsC
          (some (lid, conf))).student_id = none) ∧
    ((∀ p ∈ hist, 0 ≤ p.2.confidence ∧ p.2.confidence ≤ 1) →
      (∀ reg, 0 ≤ (recog reg).confidence ∧ (recog reg).confidence ≤ 1) →
      ∀ f ∈ stableFaces (detectFacesCycle hist nowU nowE rawFaces recog),
        0 ≤ f.confidence ∧ f.confidence ≤ 1) := by
  refine ⟨?_, ?_, ?_, ?_, ?_⟩
  · unfold recognize_face
    split_ifs with h1 h2
    · exact ⟨le_refl 0, zero_le_one⟩
    · exact ⟨le_refl 0, zero_le_one⟩
    · cases predict with
      | none => exact ⟨le_refl 0, zero_le_one⟩
      | some pr =>
        obtain ⟨l, c⟩ := pr
        dsimp only
        split_ifs with h3
        · cases hdg : dictGet l labels with
          | none => exact ⟨le_refl 0, zero_le_one⟩
          | some info =>
            exact ⟨similarityEnhanced_nonneg c, similarityEnhanced_le_one c⟩
        · exact ⟨le_refl 0, zero_le_one⟩
  · intro h
    unfold recognize_face
    dsimp only
    split_ifs with h1 h2 h3 <;>
      first
        | rfl
        | exact absurd h3 (lt_asymm h)
  · intro h
    unfold recognizeInCycle
    dsimp only
    split_ifs <;>
      first
        | exact ⟨le_refl 0, zero_le_one⟩
        | (cases hdg : dictGet lid labelsC with
            | none => exact ⟨le_refl 0, zero_le_one⟩
            | some info =>
                exact ⟨cycleSimilarity_nonneg conf, cycleSimilarity_le_one h⟩)
  · intro h
    unfold recognizeInCycle
    dsimp only
    split_ifs with h1 h2 h3 <;>
      first
        | rfl
        | exact absurd h3 (lt_asymm h)
  · intro hh hr f hf
    unfold stableFaces at hf
    rcases List.mem_map.mp hf with ⟨p, hp, rfl⟩
    unfold detectFacesCycle evictOld at hp
    exact confBounds_foldl_track nowU recog _ hist hh hr p
      (List.mem_of_mem_filter hp)

/-- C2 — witness at concrete inputs (raw LBPH distance 300, threshold
1/2, empty history, non-matching recognizer). -/
theorem C2_witness :
    (0 ≤ (recognize_face true [] true (some (0, 300))).similarity ∧
      (recognize_face true [] true (some (0, 300))).similarity ≤ 1) ∧
    (recognize_face true [] true (some (0, 300))).student_id = none ∧
    (0 ≤ (recognizeInCycle true true (1/2) [] (some (0, 300))).confidence ∧
      (recognizeInCycle true true (1/2) [] (some (0, 300))).confidence ≤ 1) ∧
    (recognizeInCycle true true (1/2) [] (some (0, 300))).student_id = none ∧
    (∀ f ∈ stableFaces (detectFacesCycle [] 0 0 []
        (fun _ => ⟨none, "Unknown", 0⟩)),
      0 ≤ f.confidence ∧ f.confidence ≤ 1) := by
  have h := C2_similarity_bounds true true [] (some (0, 300)) 0 300 true true
    (1/2) [] [] 0 0 [] (fun _ => ⟨none, "Unknown", 0⟩)
  exact ⟨h.1, h.2.1 (by norm_num [similarityEnhanced]),
    h.2.2.1 (by norm_num), h.2.2.2.1 (by norm_num [cycleSimilarity]),
    h.2.2.2.2 (by simp) (fun reg => by norm_num)⟩

/-! ## C3 — non-matches are normal None results -/

/-- C3 — confirmed.  `recognize_face` is a total function returning the
`(None, None, 0)` triple — never an exception — when the model is
untrained, when the underlying predict call fails (the caught exception
path), and when the computed similarity is below the 0.2 threshold; and
on every reachable gallery state an empty gallery is untrained, so
recognition on it likewise returns the `None` result. -/
theorem C3_none_results (trained : Bool) (labels : List (Nat × LabelInfo))
    (pre : Bool) (predict : Option (Nat × ℚ)) (lid : Nat) (conf : ℚ)
    (g : Gallery) :
    recognize_face false labels pre predict = recogNone ∧
    recognize_face trained labels pre none = recogNone ∧
    (similarityEnhanced conf < 1/5 →
      recognize_face trained labels pre (some (lid, conf)) = recogNone) ∧
    (GalleryReachable g → g.known_faces = [] →
      recognize_face g.is_trained g.face_labels pre predict = recogNone) := by
  refine ⟨?_, ?_, ?_, ?_⟩
  · simp [recognize_face]
  · unfold recognize_face
    split_ifs <;> rfl
  · intro h
    unfold recognize_face
    dsimp only
    split_ifs with h1 h2 h3 <;>
      first
        | rfl
        | exact absurd h3 (lt_asymm h)
  · intro hr hkf
    rw [galleryReachable_empty_untrained hr hkf]
    simp [recognize_face]

/-- C3 — witness: untrained, failed-predict, below-threshold and
empty-reachable-gallery recognitions all produce `(None, None, 0)` at
concrete inputs. -/
theorem C3_witness :
    recognize_face false [] true none = recogNone ∧
    recognize_face true [] true none = recogNone ∧
    recognize_face true [] true (some (0, 300)) = recogNone ∧
    recognize_face (Gallery.mk [] [] false).is_trained
      (Gallery.mk [] [] false).face_labels true none = recogNone := by
  have h := C3_none_results true [] true none 0 300 ⟨[], [], false⟩
  refine ⟨h.1, h.2.1, h.2.2.1 (by norm_num [similarityEnhanced]),
    h.2.2.2 ?_ rfl⟩
  exact GalleryReachable.init none none false false

/-- C1 — counterexample.  Enrolling a single identity with a single
image into the empty `OpenCVSimpleFaceRecognition` gallery succeeds and
leaves exactly one stored sample (fewer than 2), yet its
`train_recognizer` has set the trained flag to `true`, contradicting
the claim that `train_recognizer` leaves the flag false whenever the
total sample count is below 2. -/
theorem C1_counterexample :
    totalSamples
        (add_student_face_simple ⟨[], [], false⟩ 1 "Alice" true true
          [⟨10, 10, 100, 100⟩] 7).2.known_faces = 1 ∧
    (add_student_face_simple ⟨[], [], false⟩ 1 "Alice" true true
          [⟨10, 10, 100, 100⟩] 7).2.is_trained = true := by
  decide

/-- C1 (amended) — training gate.  `EnhancedFaceRecognition.train_recognizer`
implements the claimed gate exactly: the trained flag after the call is
true iff the total sample count is at least 2 (so with fewer than 2
samples it is left false, and with 2 or more — necessarily from at
least one enrolled identity — it is set true).
`OpenCVSimpleFaceRecognition.train_recognizer` instead sets the flag
true whenever at least one sample exists, sets it false only for an
empty gallery, and otherwise leaves its previous value. -/
theorem C1_training_gate (kf : List (Nat × FaceData)) (old : Bool) :
    trainRecognizerEnhanced kf = decide (2 ≤ totalSamples kf) ∧
    trainRecognizerSimple kf old =
      (decide (1 ≤ totalSamples kf) || (!kf.isEmpty && old)) := by
  constructor
  · unfold trainRecognizerEnhanced totalSamples
    split_ifs with h1 h2
    · rw [trainingFaces_of_length_zero kf h1]
      simp
    · simp
      omega
    · simp
      omega
  · unfold trainRecognizerSimple totalSamples
    split_ifs with h1 h2
    · rcases List.length_eq_zero.mp h1 with rfl
      simp [trainingFaces]
    · have : kf ≠ [] := by
        intro hk
        rw [hk] at h1
        exact h1 rfl
      simp
      omega
    · have hk : kf ≠ [] := by
        intro hk
        rw [hk] at h1
        exact h1 rfl
      have h0 : (trainingFaces kf).length = 0 := by omega
      simp [List.isEmpty_iff, hk, h0]

/-! ## C4 — enrolling an existing identity -/

/-- C4 — counterexample.  Re-enrolling student 1 in the enhanced module
while their template holds the single sample `0`: the claim predicts the
newly generated samples are appended with the oldest beyond the cap of
10 evicted (here 1 + 5 = 6 ≤ 10, so sample `0` would be retained); the
code instead replaces the stored sample list, dropping sample `0`. -/
theorem C4_counterexample :
    (dictGet 1 (add_student_face_enhanced
          ⟨[(1, ⟨"Alice", 0, [0]⟩)], [(0, ⟨1, "Alice"⟩)], false⟩
          1 "Alice" true true [⟨10, 10, 100, 100⟩] (some 1)
          [2, 3, 4, 5]).2.known_faces).map FaceData.images
      = some [1, 2, 3, 4, 5] ∧
    some [1, 2, 3, 4, 5] ≠ some (pyLastN 10 ([0] ++ [1, 2, 3, 4, 5])) := by
  decide

/-- C4 (amended) — enrolling an identity that already has a template.
In `face_detection_new.py` the newly generated samples are appended to
the identity's sample list and only the most recent at most 10 are kept
(a suffix of the appended list, so the oldest are evicted first); in
`face_recognition_enhanced.py` the update branch instead replaces the
stored sample list with the newly generated samples. -/
theorem C4_enroll_existing (kf : List (Nat × FaceData))
    (labels : List (Nat × LabelInfo)) (sid : Nat) (sname : String)
    (fd : FaceData) (newSamples : List Sample)
    (h : dictGet sid kf = some fd) :
    (dictGet sid (storeFaceNew kf labels sid sname newSamples).1).map
        FaceData.images = some (pyLastN 10 (fd.images ++ newSamples)) ∧
    (pyLastN 10 (fd.images ++ newSamples)).length ≤ 10 ∧
    (pyLastN 10 (fd.images ++ newSamples)) <:+ (fd.images ++ newSamples) ∧
    (dictGet sid (storeFaceEnhanced kf labels sid sname newSamples).1).map
        FaceData.images = some newSamples := by
  refine ⟨?_, ?_, ?_, ?_⟩
  · unfold storeFaceNew
    rw [h]
    dsimp only
    rw [dictGet_dictSet_self]
    rfl
  · unfold pyLastN
    rw [List.length_drop]
    omega
  · exact List.drop_suffix _ _
  · unfold storeFaceEnhanced
    rw [h]
    dsimp only
    rw [dictGet_dictSet_self]
    rfl

/-- C4 — witness: re-enrolling student 2 (template `[0]`, new samples
`[1, 2, 3]`) appends-and-caps in `face_detection_new` and replaces in
the enhanced module. -/
theorem C4_witness :
    (dictGet 2 (storeFaceNew [(2, ⟨"Bob", 0, [0]⟩)] [(0, ⟨2, "Bob"⟩)]
        2 "Bob" [1, 2, 3]).1).map FaceData.images
      = some (pyLastN 10 ((FaceData.mk "Bob" 0 [0]).images ++ [1, 2, 3])) ∧
    (pyLastN 10 ((FaceData.mk "Bob" 0 [0]).images ++ [1, 2, 3])).length ≤ 10 ∧
    (pyLastN 10 ((FaceData.mk "Bob" 0 [0]).images ++ [1, 2, 3])) <:+
      ((FaceData.mk "Bob" 0 [0]).images ++ [1, 2, 3]) ∧
    (dictGet 2 (storeFaceEnhanced [(2, ⟨"Bob", 0, [0]⟩)] [(0, ⟨2, "Bob"⟩)]
        2 "Bob" [1, 2, 3]).1).map FaceData.images = some [1, 2, 3] :=
  C4_enroll_existing [(2, ⟨"Bob", 0, [0]⟩)] [(0, ⟨2, "Bob"⟩)] 2 "Bob"
    ⟨"Bob", 0, [0]⟩ [1, 2, 3] (by decide)

/-! ## C5 — eviction of stale tracked faces -/

/-- C5 — confirmed.  A tracked face whose key receives no observation
in a detection cycle and whose last-seen time lies more than the
5-second inactivity timeout before the cleanup timestamp is removed
from `detection_history` by that cycle, and consequently no entry of
the published `stable_faces` snapshot carries its location. -/
theorem C5_eviction (hist : List (Region × Detection)) (nowU nowE : ℚ)
    (rawFaces : List Region) (recog : Region → CycleRecog) (k : Region)
    (d : Detection) (hwf : HistWF hist) (hk : dictGet k hist = some d)
    (hnoobs : k ∉ capTwoFaces (qualityFilter rawFaces))
    (hstale : 5 < nowE - d.last_seen) :
    dictGet k (detectFacesCycle hist nowU nowE rawFaces recog) = none ∧
    ∀ f ∈ stableFaces (detectFacesCycle hist nowU nowE rawFaces recog),
      f.location ≠ k := by
  have hfold : dictGet k ((capTwoFaces (qualityFilter rawFaces)).foldl
      (fun h key => trackObservation nowU h key (recog key)) hist) = some d :=
    (dictGet_foldl_track nowU recog _ hist k hnoobs).trans hk
  have hnd : ((capTwoFaces (qualityFilter rawFaces)).foldl
      (fun h key => trackObservation nowU h key (recog key)) hist).map
      Prod.fst |>.Nodup :=
    keysNodup_foldl_track nowU recog _ hist hwf.1
  have hnone : dictGet k (detectFacesCycle hist nowU nowE rawFaces recog)
      = none := by
    unfold detectFacesCycle
    exact dictGet_evictOld_of_stale nowE hnd hfold hstale
  refine ⟨hnone, ?_⟩
  intro f hf
  unfold stableFaces at hf
  rcases List.mem_map.mp hf with ⟨p, hp, rfl⟩
  have hp' : p ∈ (capTwoFaces (qualityFilter rawFaces)).foldl
      (fun h key => trackObservation nowU h key (recog key)) hist := by
    unfold detectFacesCycle evictOld at hp
    exact List.mem_of_mem_filter hp
  have hloc : p.2.location = p.1 :=
    locWF_foldl_track nowU recog _ hist hwf.2 p hp'
  intro hcontra
  have hpk : p.1 = k := by
    rw [← hloc]
    exact hcontra
  rw [dictGet_eq_none_iff] at hnone
  exact hnone p hp hpk

/-- C5 — witness: a lone tracked face last seen at time 0 is evicted by
a cycle with no observations at time 6. -/
theorem C5_witness :
    dictGet ⟨0, 0, 100, 100⟩ (detectFacesCycle
        [(⟨0, 0, 100, 100⟩, ⟨1, 0, 0, none, "Unknown", 0, ⟨0, 0, 100, 100⟩⟩)]
        6 6 [] (fun _ => ⟨none, "Unknown", 0⟩)) = none ∧
    ∀ f ∈ stableFaces (detectFacesCycle
        [(⟨0, 0, 100, 100⟩, ⟨1, 0, 0, none, "Unknown", 0, ⟨0, 0, 100, 100⟩⟩)]
        6 6 [] (fun _ => ⟨none, "Unknown", 0⟩)),
      f.location ≠ ⟨0, 0, 100, 100⟩ :=
  C5_eviction
    [(⟨0, 0, 100, 100⟩, ⟨1, 0, 0, none, "Unknown", 0, ⟨0, 0, 100, 100⟩⟩)]
    6 6 [] (fun _ => ⟨none, "Unknown", 0⟩) ⟨0, 0, 100, 100⟩
    ⟨1, 0, 0, none, "Unknown", 0, ⟨0, 0, 100, 100⟩⟩
    (by constructor
        · decide
        · decide)
    (by decide) (by decide) (by norm_num)

/-! ## C6 — monotone best-similarity update -/

/-- C6 — confirmed.  An observation hitting an existing tracked-face
key refreshes its last-seen time and increments its hit count;
identity, name and confidence are overwritten exactly when the new
confidence is strictly higher than the recorded one, so the recorded
confidence never decreases. -/
theorem C6_track_update (now : ℚ) (hist : List (Region × Detection))
    (key : Region) (r : CycleRecog) (d : Detection)
    (h : dictGet key hist = some d) :
    dictGet key (trackObservation now hist key r)
        = some (updateDetection now r d) ∧
    (updateDetection now r d).count = d.count + 1 ∧
    (updateDetection now r d).last_seen = now ∧
    d.confidence ≤ (updateDetection now r d).confidence ∧
    (r.confidence ≤ d.confidence →
      (updateDetection now r d).confidence = d.confidence ∧
      (updateDetection now r d).student_id = d.student_id ∧
      (updateDetection now r d).name = d.name) ∧
    (d.confidence < r.confidence →
      (updateDetection now r d).confidence = r.confidence ∧
      (updateDetection now r d).student_id = r.student_id ∧
      (updateDetection now r d).name = r.name) := by
  refine ⟨?_, ?_, ?_, ?_, ?_, ?_⟩
  · unfold trackObservation
    rw [h]
    exact dictGet_dictSet_self _ _ _
  · unfold updateDetection
    split_ifs <;> rfl
  · unfold updateDetection
    split_ifs <;> rfl
  · unfold updateDetection
    split_ifs with hc
    · exact le_of_lt hc
    · exact le_refl _
  · intro hle
    unfold updateDetection
    split_ifs with hc
    · exact absurd hc (not_lt.mpr hle)
    · exact ⟨rfl, rfl, rfl⟩
  · intro hlt
    unfold updateDetection
    split_ifs
    exact ⟨rfl, rfl, rfl⟩

/-- C6 — witness: a hit with confidence 1 on a tracked face recorded at
confidence 0 refreshes last-seen, bumps the count and overwrites the
identity. -/
theorem C6_witness :
    dictGet ⟨0, 0, 100, 100⟩ (trackObservation 7
        [(⟨0, 0, 100, 100⟩, ⟨1, 0, 0, none, "Unknown", 0, ⟨0, 0, 100, 100⟩⟩)]
        ⟨0, 0, 100, 100⟩ ⟨some 1, "Alice", 1⟩)
      = some (updateDetection 7 ⟨some 1, "Alice", 1⟩
          ⟨1, 0, 0, none, "Unknown", 0, ⟨0, 0, 100, 100⟩⟩) ∧
    (updateDetection 7 ⟨some 1, "Alice", 1⟩
        ⟨1, 0, 0, none, "Unknown", 0, ⟨0, 0, 100, 100⟩⟩).count = 1 + 1 ∧
    (updateDetection 7 ⟨some 1, "Alice", 1⟩
        ⟨1, 0, 0, none, "Unknown", 0, ⟨0, 0, 100, 100⟩⟩).last_seen = 7 ∧
    (0 : ℚ) ≤ (updateDetection 7 ⟨some 1, "Alice", 1⟩
        ⟨1, 0, 0, none, "Unknown", 0, ⟨0, 0, 100, 100⟩⟩).confidence ∧
    ((updateDetection 7 ⟨some 1, "Alice", 1⟩
        ⟨1, 0, 0, none, "Unknown", 0, ⟨0, 0, 100, 100⟩⟩).confidence = 1 ∧
      (updateDetection 7 ⟨some 1, "Alice", 1⟩
        ⟨1, 0, 0, none, "Unknown", 0, ⟨0, 0, 100, 100⟩⟩).student_id = some 1 ∧
      (updateDetection 7 ⟨some 1, "Alice", 1⟩
        ⟨1, 0, 0, none, "Unknown", 0, ⟨0, 0, 100, 100⟩⟩).name = "Alice") := by
  have h := C6_track_update 7
    [(⟨0, 0, 100, 100⟩, ⟨1, 0, 0, none, "Unknown", 0, ⟨0, 0, 100, 100⟩⟩)]
    ⟨0, 0, 100, 100⟩ ⟨some 1, "Alice", 1⟩
    ⟨1, 0, 0, none, "Unknown", 0, ⟨0, 0, 100, 100⟩⟩ (by decide)
  exact ⟨h.1, h.2.1, h.2.2.1, h.2.2.2.1, h.2.2.2.2.2 (by norm_num)⟩

/-! ## C7 — lifecycle idempotency -/

/-- C7 — confirmed.  `start_detection` on an already-running pipeline
returns the already-running result with the state (device handle,
spawned-thread counts, shared slots) completely unchanged, and
`stop_detection` on a stopped, resource-free state returns success and
leaves the state unchanged (a no-op). -/
theorem C7_lifecycle_idempotent (s : ControllerState) (cameraOpens : Bool) :
    (s.is_running = true →
      start_detection s cameraOpens = ((true, "Detection already running"), s)) ∧
    (s.is_running = false ∧ s.cap_open = false ∧ s.capture_threads = 0 ∧
        s.detection_threads = 0 ∧ s.current_frame = none ∧
        s.detected_faces = [] →
      stop_detection s = ((true, "Camera stopped"), s)) := by
  constructor
  · intro h
    simp [start_detection, h]
  · rintro ⟨h1, h2, h3, h4, h5, h6⟩
    unfold stop_detection
    cases s
    simp_all

/-- C7 — witness: a second start on a running pipeline and a stop on
the pristine stopped state. -/
theorem C7_witness :
    start_detection ⟨true, true, 1, 1, none, []⟩ true
        = ((true, "Detection already running"), ⟨true, true, 1, 1, none, []⟩) ∧
    stop_detection ⟨false, false, 0, 0, none, []⟩
        = ((true, "Camera stopped"), ⟨false, false, 0, 0, none, []⟩) :=
  ⟨(C7_lifecycle_idempotent ⟨true, true, 1, 1, none, []⟩ true).1 rfl,
   (C7_lifecycle_idempotent ⟨false, false, 0, 0, none, []⟩ true).2
     ⟨rfl, rfl, rfl, rfl, rfl, rfl⟩⟩

/-! ## C8 — enrollment with no detectable face -/

/-- C8 — confirmed.  When `detect_faces` finds no face in the (existing,
loadable) enrollment image, `add_student_face` returns the synchronous
no-face failure and the gallery — templates, label map and trained flag
— is exactly the state before the call. -/
theorem C8_no_face_enroll_unchanged (g : Gallery) (sid : Nat) (sname : String)
    (processed : Option Sample) (variations : List Sample) :
    add_student_face_enhanced g sid sname true true [] processed variations
        = ((false, "No face detected in image"), g) ∧
    (add_student_face_enhanced g sid sname true true [] processed
        variations).2.known_faces = g.known_faces ∧
    (add_student_face_enhanced g sid sname true true [] processed
        variations).2.face_labels = g.face_labels ∧
    (add_student_face_enhanced g sid sname true true [] processed
        variations).2.is_trained = g.is_trained := by
  have h : add_student_face_enhanced g sid sname true true [] processed
      variations = ((false, "No face detected in image"), g) := by
    unfold add_student_face_enhanced
    simp
  exact ⟨h, by rw [h], by rw [h], by rw [h]⟩

/-! ## C9 — copy semantics of the shared-state readers -/

/-- C9 — counterexample.  `get_detected_faces` returns
`self.detected_faces.copy()`, a shallow copy: the returned list shares
its face-dict references with the internal slot.  Mutating the face
entry reached through reference 0 of the returned copy changes the
pipeline's internal detected-faces view, refuting the claim that every
read returns a deep copy whose mutation never alters internal state. -/
theorem C9_counterexample :
    (0 : Addr) ∈ get_detected_faces ⟨[0], none⟩ ∧
    readFacesView (writeFace ⟨[(0, ⟨some 1, "Alice", 1⟩)], [], 1⟩ 0
          ⟨none, "Unknown", 0⟩) (SharedSlots.mk [0] none).detected_faces ≠
      readFacesView ⟨[(0, ⟨some 1, "Alice", 1⟩)], [], 1⟩
        (SharedSlots.mk [0] none).detected_faces := by
  decide

/-- C9 (amended) — copy semantics as implemented.  `get_detected_faces`
returns a fresh list sharing its element references with the internal
slot (a shallow copy, so mutating a returned face entry does alter
internal state, as the counterexample shows); nevertheless a later
internal update never alters a previously handed-out copy, because the
detection thread publishes a wholly new list of freshly allocated
entries; and the latest-frame accessor does return a deep copy of the
frame buffer: the fresh buffer holds the same pixels, mutating it
leaves the internal frame unchanged, and overwriting the internal frame
leaves the returned copy unchanged. -/
theorem C9_copy_semantics (h : PyHeap) (slots : SharedSlots)
    (entries : List FaceEntry) (refs : List Addr) (a : Addr)
    (buf newbuf : List Nat) :
    get_detected_faces slots = slots.detected_faces ∧
    ((∀ x ∈ refs, x < h.nextAddr) →
      readFacesView (publishFaces h slots entries).1 refs
        = readFacesView h refs) ∧
    (PyHeap.WF h → slots.current_frame = some a → readFrame h a = some buf →
      (get_frame h slots).1 = some h.nextAddr ∧
      readFrame (get_frame h slots).2 h.nextAddr = some buf ∧
      readFrame (writeFrame (get_frame h slots).2 h.nextAddr newbuf) a
        = some buf ∧
      readFrame (writeFrame (get_frame h slots).2 a newbuf) h.nextAddr
        = some buf) := by
  refine ⟨rfl, ?_, ?_⟩
  · intro hr
    unfold readFacesView publishFaces
    dsimp only
    apply List.map_congr_left
    intro x hx
    have hxlt : x < h.nextAddr := hr x hx
    unfold readFace
    dsimp only
    have hzip : dictGet x (((List.range entries.length).map
        (fun i => h.nextAddr + i)).zip entries) = none := by
      rw [dictGet_eq_none_iff]
      intro p hp hpx
      have h1 : p.1 ∈ (List.range entries.length).map
          (fun i => h.nextAddr + i) := (List.of_mem_zip hp).1
      rcases List.mem_map.mp h1 with ⟨i, _, hi⟩
      have hge : h.nextAddr ≤ p.1 := by
        rw [← hi]
        exact Nat.le_add_right h.nextAddr i
      rw [hpx] at hge
      exact absurd hxlt (not_lt.mpr hge)
    cases hc : dictGet x h.faceCells with
    | none =>
      rw [dictGet_append_right _ hc, hzip]
    | some v =>
      exact dictGet_append_left _ hc
  · intro hwf hcf hrf
    obtain ⟨hwfFace, hwfFrame⟩ := hwf
    have hrf' : dictGet a h.frameCells = some buf := hrf
    have hmem : (a, buf) ∈ h.frameCells := dictGet_some_mem hrf'
    have halt : a < h.nextAddr := hwfFrame (a, buf) hmem
    have hane : a ≠ h.nextAddr := Nat.ne_of_lt halt
    have hfresh : dictGet h.nextAddr h.frameCells = none := by
      rw [dictGet_eq_none_iff]
      intro p hp hpk
      exact Nat.ne_of_lt (hwfFrame p hp) hpk
    have hgf : get_frame h slots
        = (some h.nextAddr,
           { h with frameCells := h.frameCells ++ [(h.nextAddr, buf)],
                    nextAddr := h.nextAddr + 1 }) := by
      unfold get_frame
      rw [hcf]
      dsimp only
      rw [hrf']
    have hread2 : readFrame (get_frame h slots).2 h.nextAddr = some buf := by
      rw [hgf]
      unfold readFrame
      dsimp only
      rw [dictGet_append_right _ hfresh]
      simp [dictGet]
    refine ⟨by rw [hgf], hread2, ?_, ?_⟩
    · rw [hgf]
      unfold readFrame writeFrame
      dsimp only
      rw [dictGet_dictSet_ne (Ne.symm hane)]
      exact dictGet_append_left _ hrf'
    · rw [hgf]
      unfold readFrame writeFrame
      dsimp only
      rw [dictGet_dictSet_ne hane]
      rw [dictGet_append_right _ hfresh]
      simp [dictGet]

/-- C9 — witness: one published face dict, one held frame buffer. -/
theorem C9_witness :
    get_detected_faces (SharedSlots.mk [0] (some 0))
        = (SharedSlots.mk [0] (some 0)).detected_faces ∧
    readFacesView (publishFaces ⟨[(0, ⟨some 1, "Alice", 1⟩)], [(0, [7])], 1⟩
          (SharedSlots.mk [0] (some 0)) [⟨none, "Unknown", 0⟩]).1 [0]
      = readFacesView ⟨[(0, ⟨some 1, "Alice", 1⟩)], [(0, [7])], 1⟩ [0] ∧
    ((get_frame ⟨[(0, ⟨some 1, "Alice", 1⟩)], [(0, [7])], 1⟩
        (SharedSlots.mk [0] (some 0))).1 = some 1 ∧
      readFrame (get_frame ⟨[(0, ⟨some 1, "Alice", 1⟩)], [(0, [7])], 1⟩
          (SharedSlots.mk [0] (some 0))).2 1 = some [7] ∧
      readFrame (writeFrame (get_frame ⟨[(0, ⟨some 1, "Alice", 1⟩)], [(0, [7])], 1⟩
          (SharedSlots.mk [0] (some 0))).2 1 [9]) 0 = some [7] ∧
      readFrame (writeFrame (get_frame ⟨[(0, ⟨some 1, "Alice", 1⟩)], [(0, [7])], 1⟩
          (SharedSlots.mk [0] (some 0))).2 0 [9]) 1 = some [7]) := by
  have h := C9_copy_semantics ⟨[(0, ⟨some 1, "Alice", 1⟩)], [(0, [7])], 1⟩
    (SharedSlots.mk [0] (some 0)) [⟨none, "Unknown", 0⟩] [0] 0 [7] [9]
  exact ⟨h.1, h.2.1 (by decide), h.2.2 ⟨by decide, by decide⟩ rfl (by decide)⟩

/-! ## C10 — at most two faces per cycle -/

/-- C10 — confirmed.  Each detection cycle processes exactly the first
two quality-filtered face regions (the Python `[:2]` slice), hence at
most two; a region beyond the cap cannot touch `detection_history`
during that cycle: if its key is untracked no entry is created, and if
it is already tracked its entry is carried through the cycle verbatim —
not refreshed, not updated — kept exactly as it was when its last-seen
is within the 5-second timeout and removed only by the staleness
cleanup otherwise. -/
theorem C10_at_most_two (qf : List Region) (hist : List (Region × Detection))
    (nowU nowE : ℚ) (rawFaces : List Region) (recog : Region → CycleRecog)
    (k : Region) (d : Detection) :
    capTwoFaces qf = qf.take 2 ∧
    (capTwoFaces qf).length ≤ 2 ∧
    (k ∉ capTwoFaces (qualityFilter rawFaces) → dictGet k hist = none →
      dictGet k (detectFacesCycle hist nowU nowE rawFaces recog) = none) ∧
    (k ∉ capTwoFaces (qualityFilter rawFaces) → (hist.map Prod.fst).Nodup →
      dictGet k hist = some d →
      dictGet k (detectFacesCycle hist nowU nowE rawFaces recog)
        = if 5 < nowE - d.last_seen then none else some d) := by
  refine ⟨?_, ?_, ?_, ?_⟩
  · unfold capTwoFaces
    split_ifs with h
    · rfl
    · rw [List.take_of_length_le (by omega)]
  · unfold capTwoFaces
    split_ifs with h
    · rw [List.length_take]
      omega
    · omega
  · intro hk hnone
    unfold detectFacesCycle evictOld
    apply dictGet_filter_none
    rw [dictGet_foldl_track nowU recog _ hist k hk]
    exact hnone
  · intro hk hnd hsome
    have hfold : dictGet k ((capTwoFaces (qualityFilter rawFaces)).foldl
        (fun h key => trackObservation nowU h key (recog key)) hist) = some d :=
      (dictGet_foldl_track nowU recog _ hist k hk).trans hsome
    have hfnd : ((capTwoFaces (qualityFilter rawFaces)).foldl
        (fun h key => trackObservation nowU h key (recog key)) hist).map
        Prod.fst |>.Nodup :=
      keysNodup_foldl_track nowU recog _ hist hnd
    unfold detectFacesCycle
    split_ifs with hstale
    · exact dictGet_evictOld_of_stale nowE hfnd hfold hstale
    · exact dictGet_evictOld_of_fresh nowE hfold hstale

/-- C10 — witness: three quality candidates are capped to the first
two; the third region's key is untracked after a cycle starting from an
empty history, and a cycle that observes only the first two faces
carries an existing fresh entry for the third region through
unchanged. -/
theorem C10_witness :
    capTwoFaces [⟨0, 0, 100, 100⟩, ⟨200, 0, 100, 100⟩, ⟨400, 0, 100, 100⟩]
        = ([⟨0, 0, 100, 100⟩, ⟨200, 0, 100, 100⟩,
            ⟨400, 0, 100, 100⟩] : List Region).take 2 ∧
    (capTwoFaces [⟨0, 0, 100, 100⟩, ⟨200, 0, 100, 100⟩,
        ⟨400, 0, 100, 100⟩]).length ≤ 2 ∧
    dictGet (⟨400, 0, 100, 100⟩ : Region) (detectFacesCycle [] 0 0
        [⟨0, 0, 100, 100⟩, ⟨200, 0, 100, 100⟩, ⟨400, 0, 100, 100⟩]
        (fun _ => ⟨none, "Unknown", 0⟩)) = none ∧
    dictGet (⟨400, 0, 100, 100⟩ : Region) (detectFacesCycle
        [(⟨400, 0, 100, 100⟩,
          ⟨1, 0, 0, none, "Unknown", 0, ⟨400, 0, 100, 100⟩⟩)] 3 3
        [⟨0, 0, 100, 100⟩, ⟨200, 0, 100, 100⟩, ⟨400, 0, 100, 100⟩]
        (fun _ => ⟨none, "Unknown", 0⟩))
      = some ⟨1, 0, 0, none, "Unknown", 0, ⟨400, 0, 100, 100⟩⟩ := by
  have h1 := C10_at_most_two
    [⟨0, 0, 100, 100⟩, ⟨200, 0, 100, 100⟩, ⟨400, 0, 100, 100⟩] [] 0 0
    [⟨0, 0, 100, 100⟩, ⟨200, 0, 100, 100⟩, ⟨400, 0, 100, 100⟩]
    (fun _ => ⟨none, "Unknown", 0⟩) ⟨400, 0, 100, 100⟩
    ⟨1, 0, 0, none, "Unknown", 0, ⟨400, 0, 100, 100⟩⟩
  have h2 := C10_at_most_two
    [⟨0, 0, 100, 100⟩, ⟨200, 0, 100, 100⟩, ⟨400, 0, 100, 100⟩]
    [(⟨400, 0, 100, 100⟩, ⟨1, 0, 0, none, "Unknown", 0, ⟨400, 0, 100, 100⟩⟩)]
    3 3 [⟨0, 0, 100, 100⟩, ⟨200, 0, 100, 100⟩, ⟨400, 0, 100, 100⟩]
    (fun _ => ⟨none, "Unknown", 0⟩) ⟨400, 0, 100, 100⟩
    ⟨1, 0, 0, none, "Unknown", 0, ⟨400, 0, 100, 100⟩⟩
  have h4 := h2.2.2.2 (by decide) (by decide) (by decide)
  rw [if_neg (by norm_num)] at h4
  exact ⟨h1.1, h1.2.1, h1.2.2.1 (by decide) (by decide), h4⟩
